import Mathlib

/-!
Verification of the rule-matching-and-dispatch pipeline of the Pokemon
streaming proxy (`app/core/rules.py`, `app/utils/crypto.py`,
`app/utils/stats.py`, `app/api/routes.py`, `app/models/pokemon_models.py`).

The Python code is shallowly embedded: byte strings become `List Nat`
(entries < 256), Python `int` becomes `Int`/`Nat`, Python `float` is
modelled as the exact rational value of the IEEE binary64 number
(`roundF` performs round-to-nearest-even at 53 bits of precision for
values in the normal range, which covers every value appearing in the
claims; subnormals, overflow, infinities and NaN do not occur there),
Python dynamic values flowing through rule evaluation and the pydantic
model become `JsonVal`, raising code returns `Except`, and `try/except`
blocks become `match` on the `Except` value.
-/

set_option maxRecDepth 200000

attribute [local semireducible] Rat.add Rat.mul Rat.inv Rat.sub Rat.ofScientific

/-! ## SHA-256, HMAC and hex (embedding of `hashlib.sha256` / `hmac`) -/

/-- Reduce a natural number modulo 2^32, the word size of SHA-256. -/
def w32 (n : Nat) : Nat := n % 4294967296

/-- Bitwise complement within a 32-bit word. -/
def not32 (x : Nat) : Nat := x ^^^ 4294967295

/-- Right rotation of a 32-bit word by `n` bits. -/
def rotr32 (n x : Nat) : Nat := (x >>> n) ||| w32 (x <<< (32 - n))

def bigSigma0 (x : Nat) : Nat := rotr32 2 x ^^^ rotr32 13 x ^^^ rotr32 22 x

def bigSigma1 (x : Nat) : Nat := rotr32 6 x ^^^ rotr32 11 x ^^^ rotr32 25 x

def smallSigma0 (x : Nat) : Nat := rotr32 7 x ^^^ rotr32 18 x ^^^ (x >>> 3)

def smallSigma1 (x : Nat) : Nat := rotr32 17 x ^^^ rotr32 19 x ^^^ (x >>> 10)

/-- The 64 SHA-256 round constants (FIPS 180-4), written in decimal. -/
def sha256K : List Nat :=
  [1116352408, 1899447441, 3049323471, 3921009573, 961987163, 1508970993,
   2453635748, 2870763221, 3624381080, 310598401, 607225278, 1426881987,
   1925078388, 2162078206, 2614888103, 3248222580, 3835390401, 4022224774,
   264347078, 604807628, 770255983, 1249150122, 1555081692, 1996064986,
   2554220882, 2821834349, 2952996808, 3210313671, 3336571891, 3584528711,
   113926993, 338241895, 666307205, 773529912, 1294757372, 1396182291,
   1695183700, 1986661051, 2177026350, 2456956037, 2730485921, 2820302411,
   3259730800, 3345764771, 3516065817, 3600352804, 4094571909, 275423344,
   430227734, 506948616, 659060556, 883997877, 958139571, 1322822218,
   1537002063, 1747873779, 1955562222, 2024104815, 2227730452, 2361852424,
   2428436474, 2756734187, 3204031479, 3329325298]

/-- The SHA-256 initial hash value, written in decimal. -/
def sha256H0 : List Nat :=
  [1779033703, 3144134277, 1013904242, 2773480762, 1359893119, 2600822924,
   528734635, 1541459225]

/-- Extend a 16-word message block by `k` further schedule words. -/
def extendW : Nat → List Nat → List Nat
  | 0, acc => acc
  | k+1, acc =>
    let i := acc.length
    let wn := w32 (smallSigma1 (acc.getD (i-2) 0) + acc.getD (i-7) 0 +
                   smallSigma0 (acc.getD (i-15) 0) + acc.getD (i-16) 0)
    extendW k (acc ++ [wn])

/-- One SHA-256 round on an 8-word state. -/
def sha256Round (k w : Nat) (st : List Nat) : List Nat :=
  match st with
  | [a, b, c, d, e, f, g, h] =>
    let s1 := bigSigma1 e
    let ch := (e &&& f) ^^^ (not32 e &&& g)
    let temp1 := w32 (h + s1 + ch + k + w)
    let s0 := bigSigma0 a
    let maj := (a &&& b) ^^^ (a &&& c) ^^^ (b &&& c)
    let temp2 := w32 (s0 + maj)
    [w32 (temp1 + temp2), a, b, c, w32 (d + temp1), e, f, g]
  | other => other

/-- Compress one 16-word block into the running 8-word hash state. -/
def sha256Compress (h : List Nat) (block : List Nat) : List Nat :=
  let w := extendW 48 block
  let st := (sha256K.zip w).foldl (fun st kw => sha256Round kw.1 kw.2 st) h
  (h.zip st).map (fun p => w32 (p.1 + p.2))

/-- Big-endian 8-byte encoding of a natural number. -/
def be64 (n : Nat) : List Nat :=
  [n >>> 56 % 256, n >>> 48 % 256, n >>> 40 % 256, n >>> 32 % 256,
   n >>> 24 % 256, n >>> 16 % 256, n >>> 8 % 256, n % 256]

/-- SHA-256 padding: append 0x80, zeros up to 56 mod 64, then the 64-bit bit length. -/
def sha256Pad (msg : List Nat) : List Nat :=
  let z := (119 - msg.length % 64) % 64
  msg ++ [0x80] ++ List.replicate z 0 ++ be64 (msg.length * 8)

/-- Split a list into chunks of 64 elements, with explicit fuel for termination. -/
def chunks64 : Nat → List Nat → List (List Nat)
  | 0, _ => []
  | _, [] => []
  | fuel+1, l => l.take 64 :: chunks64 fuel (l.drop 64)

/-- Interpret each 4 consecutive bytes as a big-endian 32-bit word. -/
def wordsOfBytes : List Nat → List Nat
  | b0 :: b1 :: b2 :: b3 :: rest => (b0 <<< 24 ||| b1 <<< 16 ||| b2 <<< 8 ||| b3) :: wordsOfBytes rest
  | _ => []

/-- Big-endian bytes of a 32-bit word. -/
def bytesOfWord (x : Nat) : List Nat := [x >>> 24 % 256, x >>> 16 % 256, x >>> 8 % 256, x % 256]

/-- SHA-256 of a byte list (each entry < 256), returned as 32 bytes. -/
def sha256 (msg : List Nat) : List Nat :=
  let padded := sha256Pad msg
  let blocks := chunks64 (padded.length + 1) padded
  let hFinal := blocks.foldl (fun h b => sha256Compress h (wordsOfBytes b)) sha256H0
  (hFinal.map bytesOfWord).flatten

/-- Table of the sixteen lowercase hexadecimal digits. -/
def hexTable : List Char := "0123456789abcdef".data

/-- Lowercase hexadecimal digit for `n % 16`. -/
def hexDigit (n : Nat) : Char := hexTable.getD (n % 16) '0'

/-- Lowercase hex string of a byte list, two digits per byte; embeds `.hexdigest()`. -/
def bytesToHex (bs : List Nat) : String :=
  ⟨(bs.map (fun b => [hexDigit (b / 16), hexDigit b])).flatten⟩

/-- HMAC-SHA256 with the 64-byte block size used by `hmac.new(key, body, hashlib.sha256)`. -/
def hmacSha256 (key msg : List Nat) : List Nat :=
  let key1 := if key.length > 64 then sha256 key else key
  let key64 := key1 ++ List.replicate (64 - key1.length) 0
  sha256 ((key64.map (· ^^^ 0x5c)) ++ sha256 ((key64.map (· ^^^ 0x36)) ++ msg))

/-! ## base64 decoding (embedding of `base64.b64decode` on a `str` argument) -/

/-- Value of a standard base64 alphabet character, `none` for anything else. -/
def b64CharVal? (c : Char) : Option Nat :=
  if 'A' ≤ c ∧ c ≤ 'Z' then some (c.toNat - 65)
  else if 'a' ≤ c ∧ c ≤ 'z' then some (c.toNat - 97 + 26)
  else if '0' ≤ c ∧ c ≤ '9' then some (c.toNat - 48 + 52)
  else if c = '+' then some 62
  else if c = '/' then some 63
  else none

/-- Emit the bytes encoded by a complete or padded quad of sextets. -/
def b64Flush : List Nat → List Nat
  | [a, b] => [(a <<< 2) ||| (b >>> 4)]
  | [a, b, c] => [(a <<< 2) ||| (b >>> 4), ((b &&& 15) <<< 4) ||| (c >>> 2)]
  | [a, b, c, d] => [(a <<< 2) ||| (b >>> 4), ((b &&& 15) <<< 4) ||| (c >>> 2),
                     ((c &&& 3) <<< 6) ||| d]
  | _ => []

/-- Core loop of `binascii.a2b_base64` in non-strict mode: skip characters
outside the alphabet, treat a sufficient run of `=` as padding that flushes
the current quad, and fail at the end when a quad is left incomplete. -/
def a2bAux : List Char → List Nat → List Nat → Nat → Except String (List Nat)
  | [], out, quad, _ =>
    match quad.length with
    | 0 => .ok out
    | 1 => .error "Invalid base64-encoded string: number of data characters cannot be 1 more than a multiple of 4"
    | _ => .error "Incorrect padding"
  | c :: rest, out, quad, pads =>
    if c = '=' then
      if quad.length ≥ 2 ∧ quad.length + (pads + 1) ≥ 4 then
        a2bAux rest (out ++ b64Flush quad) [] 0
      else a2bAux rest out quad (pads + 1)
    else
      match b64CharVal? c with
      | none => a2bAux rest out quad pads
      | some v =>
        let quad2 := quad ++ [v]
        if quad2.length = 4 then a2bAux rest (out ++ b64Flush quad2) [] 0
        else a2bAux rest out quad2 0

/-- Embedding of `base64.b64decode(secret)` for a `str` secret: the implicit
ASCII encode rejects non-ASCII input, then the non-strict base64 decoder runs.
An `.error` value stands for the exception the Python call would raise. -/
def b64decode (secret : String) : Except String (List Nat) :=
  if secret.data.all (fun c => c.toNat < 128) then a2bAux secret.data [] [] 0
  else .error "ValueError: string argument should contain only ASCII characters"

/-- Embedding of `hmac.compare_digest` on two `str` arguments: both must be
ASCII-only (otherwise Python raises `TypeError`), and the result is plain
string equality (the constant-time execution is a timing property with no
functional content). -/
def compare_digest (a b : String) : Except String Bool :=
  if a.data.all (fun c => c.toNat < 128) && b.data.all (fun c => c.toNat < 128) then
    .ok (a == b)
  else
    .error "TypeError: comparing strings with non-ASCII characters is not supported"

/-- Embedding of `verify_signature` from `app/utils/crypto.py`: decode the
base64 secret, compute the lowercase-hex HMAC-SHA256 of the body, compare to
the given signature; the surrounding `try/except` turns any raise into
`False`. -/
def verify_signature (signature : String) (body : List Nat) (secret : String) : Bool :=
  match b64decode secret with
  | .error _ => false
  | .ok key =>
    match compare_digest (bytesToHex (hmacSha256 key body)) signature with
    | .error _ => false
    | .ok b => b

/-! ## Binary64 arithmetic modelled over the rationals -/

/-- Base-2 logarithm on naturals with explicit fuel, so that it reduces in the kernel. -/
def natLog2Aux : Nat → Nat → Nat
  | 0, _ => 0
  | fuel+1, n => if n ≥ 2 then natLog2Aux fuel (n / 2) + 1 else 0

/-- Floor of the base-2 logarithm of a natural number. -/
def natLog2 (n : Nat) : Nat := natLog2Aux n n

/-- Integer power of two as a rational. -/
def pow2Q (e : Int) : ℚ := if 0 ≤ e then ((2:ℚ) ^ e.toNat) else ((1:ℚ) / (2:ℚ) ^ (-e).toNat)

/-- Largest `e` with `2 ^ e ≤ q`, for positive `q`. -/
def qlog2floor (q : ℚ) : Int :=
  let e0 : Int := (natLog2 q.num.natAbs : Int) - (natLog2 q.den : Int)
  if pow2Q e0 ≤ q then e0 else e0 - 1

/-- Round a nonnegative rational to the nearest integer, ties to even. -/
def roundHalfEven (q : ℚ) : Int :=
  let n := q.floor
  let f := q - (n : ℚ)
  if f < 1/2 then n
  else if (1:ℚ)/2 < f then n + 1
  else if n % 2 = 0 then n else n + 1

/-- Exact-rational model of rounding a real value to IEEE binary64
(round-to-nearest, ties-to-even, 53-bit significand). Faithful for values in
the binary64 normal range, which covers every float arising in the claims. -/
def roundF (q : ℚ) : ℚ :=
  if q = 0 then 0
  else
    let s : ℚ := if 0 < q then 1 else -1
    let aq := |q|
    let e := qlog2floor aq
    (s * (roundHalfEven (aq * pow2Q (52 - e)) : ℚ)) * pow2Q (e - 52)

/-- Python float addition: exact rational sum, then binary64 rounding. -/
def fadd (x y : ℚ) : ℚ := roundF (x + y)

/-- Python float multiplication: exact rational product, then binary64 rounding. -/
def fmul (x y : ℚ) : ℚ := roundF (x * y)

/-- Python float (true) division: exact rational quotient, then binary64 rounding. -/
def fdiv (x y : ℚ) : ℚ := roundF (x / y)

/-- Value of a Python float literal: the decimal value rounded to binary64. -/
def flit (q : ℚ) : ℚ := roundF q

/-! ## Statistics store (embedding of `app/utils/stats.py`) -/

/-- Per-destination counters held in the global `stats` dict; the unused
wall-clock `start_time` field is omitted (no claim mentions it). Response
times are the binary64 values, modelled as exact rationals. -/
structure EndpointStats where
  request_count : Nat
  error_count : Nat
  bytes_in : Nat
  bytes_out : Nat
  response_times : List ℚ
deriving DecidableEq

/-- Counters of a freshly initialized destination. -/
def emptyEndpointStats : EndpointStats := ⟨0, 0, 0, 0, []⟩

/-- The global `stats` dict, as an insertion-ordered association list. -/
abbrev StatsStore := List (String × EndpointStats)

/-- Embedding of `initialize_stats`: create the counters of a destination on
first reference (a Python dict insertion appends at the end). -/
def init_stats (url : String) (st : StatsStore) : StatsStore :=
  if (st.lookup url).isSome then st else st ++ [(url, emptyEndpointStats)]

/-- Update the counters stored under an existing key. -/
def setStat (url : String) (f : EndpointStats → EndpointStats) (st : StatsStore) : StatsStore :=
  st.map (fun p => if p.1 = url then (p.1, f p.2) else p)

/-- Embedding of `update_request_stats`: lazily initialize, then increment the
request count and the inbound byte total. -/
def update_request_stats (url : String) (body_length : Nat) (st : StatsStore) : StatsStore :=
  setStat url
    (fun s => { s with request_count := s.request_count + 1, bytes_in := s.bytes_in + body_length })
    (init_stats url st)

/-- Embedding of `update_response_stats`: lazily initialize, then add outbound
bytes, append the response-time sample, and count an error when flagged. -/
def update_response_stats (url : String) (response_content_length : Nat) (response_time : ℚ)
    (is_error : Bool) (st : StatsStore) : StatsStore :=
  setStat url
    (fun s => { s with
      bytes_out := s.bytes_out + response_content_length,
      response_times := s.response_times ++ [response_time],
      error_count := if is_error then s.error_count + 1 else s.error_count })
    (init_stats url st)

/-- Derived metrics returned by `calculate_endpoint_stats`. -/
structure CalculatedStats where
  request_count : Nat
  error_rate : ℚ
  bytes_in : Nat
  bytes_out : Nat
  avg_response_time_ms : ℚ
deriving DecidableEq

/-- Python `sum` over a float list: a left fold of float additions from 0. -/
def sumF (l : List ℚ) : ℚ := l.foldl fadd 0

/-- Embedding of `calculate_endpoint_stats`: error rate and average response
time computed in Python float arithmetic, with the zero guards of the code. -/
def calculate_endpoint_stats (s : EndpointStats) : CalculatedStats :=
  { request_count := s.request_count
    error_rate :=
      if s.request_count > 0 then fmul (fdiv (s.error_count : ℚ) (s.request_count : ℚ)) 100 else 0
    bytes_in := s.bytes_in
    bytes_out := s.bytes_out
    avg_response_time_ms :=
      if s.response_times.isEmpty then 0
      else fmul (fdiv (sumF s.response_times) (s.response_times.length : ℚ)) 1000 }

/-- Counters currently recorded for a destination (empty when absent). -/
def getStats (st : StatsStore) (url : String) : EndpointStats :=
  (st.lookup url).getD emptyEndpointStats

/-- Response-time samples currently recorded for a destination. -/
def timesOf (st : StatsStore) (url : String) : List ℚ :=
  (getStats st url).response_times

/-! ## Dynamic values (Python values reaching rule evaluation and the model) -/

/-- Python runtime values that can appear in a decoded record or as the
right-hand side of a comparison: `int`, `float` (as its exact binary64
rational), `str`, and `bool`. -/
inductive JsonVal where
  | vInt : Int → JsonVal
  | vRat : ℚ → JsonVal
  | vStr : String → JsonVal
  | vBool : Bool → JsonVal
deriving DecidableEq

/-- Numeric view of a Python value: `bool` is a subtype of `int` in Python, so
`True`/`False` act as `1`/`0` in comparisons; strings are not numeric. -/
def JsonVal.numVal? : JsonVal → Option ℚ
  | .vInt n => some (n : ℚ)
  | .vRat q => some q
  | .vBool b => some (if b then 1 else 0)
  | .vStr _ => none

/-- Python `==` on the values above: numeric values compare by value across
`int`/`float`/`bool`, strings compare as strings, and a string never equals a
number (no exception either way). -/
def pyEq (a b : JsonVal) : Bool :=
  match a.numVal?, b.numVal? with
  | some x, some y => x == y
  | _, _ =>
    match a, b with
    | .vStr s, .vStr t => s == t
    | _, _ => false

/-- Lexicographic code-point comparison of two strings, the Python `<` on
`str` (implemented on the character lists so that it reduces in the kernel). -/
def pyStrLt : List Char → List Char → Bool
  | [], [] => false
  | [], _ :: _ => true
  | _ :: _, [] => false
  | a :: as, b :: bs => if a = b then pyStrLt as bs else decide (a.toNat < b.toNat)

/-- Python `<`: numeric against numeric compares by value, string against
string compares lexicographically by code point, and any mixed
string/number comparison raises `TypeError`. -/
def pyLt (a b : JsonVal) : Except String Bool :=
  match a.numVal?, b.numVal? with
  | some x, some y => .ok (decide (x < y))
  | _, _ =>
    match a, b with
    | .vStr s, .vStr t => .ok (pyStrLt s.data t.data)
    | _, _ => .error "TypeError: order comparison not supported between these types"

/-- Python `>`, with the same semantics mirrored. -/
def pyGt (a b : JsonVal) : Except String Bool := pyLt b a

/-! ## The pydantic record (embedding of `PokemonModel` from
`app/models/pokemon_models.py`). After the unvalidated `setattr` fallback of
`validate_pokemon_model`, a field can hold a value of any runtime type, so
every field is a `JsonVal`. -/

/-- The decoded record: the thirteen declared fields of `PokemonModel`. -/
structure PokemonModel where
  number : JsonVal
  name : JsonVal
  type_one : JsonVal
  type_two : JsonVal
  total : JsonVal
  hit_points : JsonVal
  attack : JsonVal
  defense : JsonVal
  special_attack : JsonVal
  special_defense : JsonVal
  speed : JsonVal
  generation : JsonVal
  legendary : JsonVal
deriving DecidableEq

/-- Names of the declared fields of the record. -/
inductive FieldId where
  | number | name | type_one | type_two | total | hit_points | attack
  | defense | special_attack | special_defense | speed | generation | legendary
deriving DecidableEq

/-- String name of a declared field. -/
def fieldName : FieldId → String
  | .number => "number"
  | .name => "name"
  | .type_one => "type_one"
  | .type_two => "type_two"
  | .total => "total"
  | .hit_points => "hit_points"
  | .attack => "attack"
  | .defense => "defense"
  | .special_attack => "special_attack"
  | .special_defense => "special_defense"
  | .speed => "speed"
  | .generation => "generation"
  | .legendary => "legendary"

/-- The thirteen declared fields, in declaration order. -/
def allFieldIds : List FieldId :=
  [.number, .name, .type_one, .type_two, .total, .hit_points, .attack, .defense,
   .special_attack, .special_defense, .speed, .generation, .legendary]

/-- Declared field named by a string, `none` for any other attribute name. -/
def fieldIdOf? (s : String) : Option FieldId :=
  allFieldIds.find? (fun fid => fieldName fid = s)

/-- Value of a declared field. -/
def readField (m : PokemonModel) : FieldId → JsonVal
  | .number => m.number
  | .name => m.name
  | .type_one => m.type_one
  | .type_two => m.type_two
  | .total => m.total
  | .hit_points => m.hit_points
  | .attack => m.attack
  | .defense => m.defense
  | .special_attack => m.special_attack
  | .special_defense => m.special_defense
  | .speed => m.speed
  | .generation => m.generation
  | .legendary => m.legendary

/-- Record with one declared field replaced. -/
def writeField (m : PokemonModel) (fid : FieldId) (v : JsonVal) : PokemonModel :=
  match fid with
  | .number => { m with number := v }
  | .name => { m with name := v }
  | .type_one => { m with type_one := v }
  | .type_two => { m with type_two := v }
  | .total => { m with total := v }
  | .hit_points => { m with hit_points := v }
  | .attack => { m with attack := v }
  | .defense => { m with defense := v }
  | .special_attack => { m with special_attack := v }
  | .special_defense => { m with special_defense := v }
  | .speed => { m with speed := v }
  | .generation => { m with generation := v }
  | .legendary => { m with legendary := v }

/-- Record holding every field's declared default: `0` for the numeric
fields, the empty string for the string fields, `False` for `legendary`. -/
def defaultPokemon : PokemonModel :=
  ⟨.vInt 0, .vStr "", .vStr "", .vStr "", .vInt 0, .vInt 0, .vInt 0, .vInt 0,
   .vInt 0, .vInt 0, .vInt 0, .vInt 0, .vBool false⟩

/-- Declared runtime type of each field. -/
inductive FieldType where
  | tInt | tStr | tBool
deriving DecidableEq

/-- Declared types: every numeric field is an `int` with a `ge=0` constraint,
`name`/`type_one`/`type_two` are `str`, `legendary` is `bool`. -/
def fieldType : FieldId → FieldType
  | .name | .type_one | .type_two => .tStr
  | .legendary => .tBool
  | _ => .tInt

/-- Python `str.strip()` over the ASCII whitespace occurring in rule strings
(implemented on the character list so that it reduces in the kernel). -/
def pyStrip (s : String) : String :=
  ⟨((s.data.dropWhile Char.isWhitespace).reverse.dropWhile Char.isWhitespace).reverse⟩

/-- ASCII lowercasing of one character. -/
def charLower (c : Char) : Char :=
  if 'A' ≤ c ∧ c ≤ 'Z' then Char.ofNat (c.toNat + 32) else c

/-- Python `str.lower()` over the ASCII range occurring in the configuration
(implemented on the character list so that it reduces in the kernel). -/
def pyLower (s : String) : String := ⟨s.data.map charLower⟩

/-- Digits of a decimal string as a natural number. -/
def digitsToNat (l : List Char) : Nat := l.foldl (fun acc c => acc * 10 + (c.toNat - 48)) 0

/-- Integer written with an optional sign and at least one ASCII digit. -/
def parseIntString? (s : String) : Option Int :=
  match s.data with
  | '-' :: ds => if ds ≠ [] && ds.all Char.isDigit then some (-(digitsToNat ds : Int)) else none
  | '+' :: ds => if ds ≠ [] && ds.all Char.isDigit then some (digitsToNat ds : Int) else none
  | ds => if ds ≠ [] && ds.all Char.isDigit then some (digitsToNat ds : Int) else none

/-- Model of pydantic v2 lax coercion into an `int` field: `int` passes,
`bool` is rejected, a `float` must be integral, a `str` is parsed as an
optionally signed decimal integer after trimming. -/
def coerceInt? : JsonVal → Option Int
  | .vBool _ => none
  | .vInt n => some n
  | .vRat q => if q.den = 1 then some q.num else none
  | .vStr s => parseIntString? (pyStrip s)

/-- Model of pydantic v2 lax coercion into a `str` field: only a `str` passes
(numbers are not coerced to strings). -/
def coerceStr? : JsonVal → Option String
  | .vStr s => some s
  | _ => none

/-- Model of pydantic v2 lax coercion into a `bool` field. -/
def coerceBool? : JsonVal → Option Bool
  | .vBool b => some b
  | .vInt n => if n = 0 then some false else if n = 1 then some true else none
  | .vRat q => if q = 0 then some false else if q = 1 then some true else none
  | .vStr s =>
    let t := pyLower s
    if t ∈ ["true", "t", "yes", "y", "on", "1"] then some true
    else if t ∈ ["false", "f", "no", "n", "off", "0"] then some false
    else none

/-- Coerce a raw value into a declared field, enforcing the `ge=0` constraint
of the numeric fields; `none` is a pydantic validation failure. -/
def coerceField (fid : FieldId) (v : JsonVal) : Option JsonVal :=
  match fieldType fid with
  | .tInt => (coerceInt? v).bind (fun n => if 0 ≤ n then some (.vInt n) else none)
  | .tStr => (coerceStr? v).map .vStr
  | .tBool => (coerceBool? v).map .vBool

/-- One field of the validating constructor `PokemonModel(**json)`: an absent
field takes its declared default, a present one is coerced. -/
def validateField (fid : FieldId) (json : List (String × JsonVal)) : Option JsonVal :=
  match json.lookup (fieldName fid) with
  | none => some (readField defaultPokemon fid)
  | some v => coerceField fid v

/-- The validating constructor `PokemonModel(**json)` (extra keys are ignored
by `model_config`): `none` models the `ValidationError` it can raise. -/
def pokemonModelValidate (json : List (String × JsonVal)) : Option PokemonModel :=
  (validateField .number json).bind fun number =>
  (validateField .name json).bind fun name =>
  (validateField .type_one json).bind fun type_one =>
  (validateField .type_two json).bind fun type_two =>
  (validateField .total json).bind fun total =>
  (validateField .hit_points json).bind fun hit_points =>
  (validateField .attack json).bind fun attack =>
  (validateField .defense json).bind fun defense =>
  (validateField .special_attack json).bind fun special_attack =>
  (validateField .special_defense json).bind fun special_defense =>
  (validateField .speed json).bind fun speed =>
  (validateField .generation json).bind fun generation =>
  (validateField .legendary json).bind fun legendary =>
  some ⟨number, name, type_one, type_two, total, hit_points, attack, defense,
        special_attack, special_defense, speed, generation, legendary⟩

/-- Python `setattr` on the pydantic model without `validate_assignment`: a
declared field is overwritten with the raw value, unvalidated; assigning an
unknown attribute raises, which the caller's `except` turns into a skip. -/
def pySetattr (m : PokemonModel) (fname : String) (v : JsonVal) : PokemonModel :=
  match fieldIdOf? fname with
  | some fid => writeField m fid v
  | none => m

/-- The record `PokemonModel(name="Unknown")` that seeds the fallback path. -/
def fallbackBase : PokemonModel := { defaultPokemon with name := .vStr "Unknown" }

/-- Embedding of `validate_pokemon_model` from `app/api/routes.py`: try the
validating constructor; on failure, build `PokemonModel(name="Unknown")` and
copy each raw field in with `setattr`, skipping ones that raise. -/
def validate_pokemon_model (json : List (String × JsonVal)) : PokemonModel :=
  match pokemonModelValidate json with
  | some m => m
  | none => json.foldl (fun m p => pySetattr m p.1 p.2) fallbackBase

/-- Python `getattr(pokemon, field)`: the value of a declared field, and an
`AttributeError` for any other name (methods and class attributes of the
pydantic model are outside the model; no predicate in the claims names one). -/
def getattr (p : PokemonModel) (fname : String) : Except String JsonVal :=
  match fieldIdOf? fname with
  | some fid => .ok (readField p fid)
  | none => .error ("AttributeError: " ++ fname)

/-! ## Rule engine (embedding of `app/core/rules.py`) -/

/-- Split `s` at the first occurrence of the pattern, the combination of
Python `pat in s` and `s.split(pat, 1)`; `none` when the pattern is absent. -/
def splitFirstAux (pat : List Char) : List Char → Option (List Char × List Char)
  | [] => none
  | c :: rest =>
    if pat.isPrefixOf (c :: rest) then some ([], (c :: rest).drop pat.length)
    else
      match splitFirstAux pat rest with
      | some ab => some (c :: ab.1, ab.2)
      | none => none

/-- String version of `splitFirstAux` (the operator patterns are nonempty, so
the empty-pattern corner of Python `in`/`split` never arises). -/
def splitOnFirst? (s pat : String) : Option (String × String) :=
  (splitFirstAux pat.data s.data).map (fun ab => (⟨ab.1⟩, ⟨ab.2⟩))

/-- Python substring containment `pat in s`, for nonempty patterns. -/
def pyContains (s pat : String) : Bool := (splitFirstAux pat.data s.data).isSome

/-- Embedding of `Operator.parse`: try the operators in the fixed order
`==`, `!=`, `>`, `<`; split on the first occurrence of the first operator
found; strip whitespace from field and value; raise `ValueError` when no
operator occurs. -/
def Operator.parse (ruleStr : String) : Except String (String × String × String) :=
  match splitOnFirst? ruleStr "==" with
  | some fv => .ok (pyStrip fv.1, "==", pyStrip fv.2)
  | none =>
    match splitOnFirst? ruleStr "!=" with
    | some fv => .ok (pyStrip fv.1, "!=", pyStrip fv.2)
    | none =>
      match splitOnFirst? ruleStr ">" with
      | some fv => .ok (pyStrip fv.1, ">", pyStrip fv.2)
      | none =>
        match splitOnFirst? ruleStr "<" with
        | some fv => .ok (pyStrip fv.1, "<", pyStrip fv.2)
        | none => .error ("Invalid rule format: " ++ ruleStr)

/-- Embedding of `Operator.evaluate`: dispatch on the operator string, with
Python comparison semantics; an unknown operator raises `ValueError`. -/
def Operator.evaluate (op : String) (actual_value expected_value : JsonVal) : Except String Bool :=
  if op = "==" then .ok (pyEq actual_value expected_value)
  else if op = "!=" then .ok (!pyEq actual_value expected_value)
  else if op = ">" then pyGt actual_value expected_value
  else if op = "<" then pyLt actual_value expected_value
  else .error ("Unknown operator: " ++ op)

/-- Python `str.isdigit` restricted to ASCII digits (the only digits occurring
in the configuration): nonempty and all digits. -/
def pyIsDigit (s : String) : Bool := !s.data.isEmpty && s.data.all Char.isDigit

/-- Integer power of ten as a rational. -/
def pow10Q (e : Int) : ℚ := if 0 ≤ e then ((10:ℚ) ^ e.toNat) else ((1:ℚ) / (10:ℚ) ^ (-e).toNat)

/-- Decimal part of the grammar accepted by Python `float(str)`: optional
sign, digits with an optional point, optional exponent. The special values
`inf`/`infinity`/`nan` and digit underscores are not modelled (no claim
reaches them, and the former are not rational). -/
def pyFloatCore? (l : List Char) : Option ℚ :=
  let sl : ℚ × List Char :=
    match l with
    | '+' :: r => (1, r)
    | '-' :: r => (-1, r)
    | r => (1, r)
  let ip := sl.2.span Char.isDigit
  let fp : List Char × List Char :=
    match ip.2 with
    | '.' :: r => r.span Char.isDigit
    | r => ([], r)
  if ip.1.isEmpty && fp.1.isEmpty then none
  else
    let mant : ℚ := sl.1 * ((digitsToNat ip.1 : ℚ) + (digitsToNat fp.1 : ℚ) / (10:ℚ) ^ fp.1.length)
    match fp.2 with
    | [] => some mant
    | 'e' :: r =>
      let es : Int × List Char :=
        match r with
        | '+' :: rr => (1, rr)
        | '-' :: rr => (-1, rr)
        | rr => (1, rr)
      let ed := es.1
      let ds := es.2.span Char.isDigit
      if ds.1.isEmpty || !ds.2.isEmpty then none
      else some (mant * pow10Q (ed * (digitsToNat ds.1 : Int)))
    | 'E' :: r =>
      let es : Int × List Char :=
        match r with
        | '+' :: rr => (1, rr)
        | '-' :: rr => (-1, rr)
        | rr => (1, rr)
      let ed := es.1
      let ds := es.2.span Char.isDigit
      if ds.1.isEmpty || !ds.2.isEmpty then none
      else some (mant * pow10Q (ed * (digitsToNat ds.1 : Int)))
    | _ => none

/-- Python `float(value)`: strip whitespace, parse the decimal grammar, and
round the exact decimal value to binary64; `none` models the `ValueError`. -/
def pyFloatOfString? (s : String) : Option ℚ :=
  (pyFloatCore? (pyStrip s).data).map roundF

/-- Embedding of `Rule._convert_value`: convert the right-hand literal to the
runtime type of the field value, checking `bool` before `int` exactly as the
`isinstance` chain does (`bool` is a subtype of `int` in Python). -/
def convertValue (value : String) (actual_value : JsonVal) : Except String JsonVal :=
  match actual_value with
  | .vBool _ => .ok (.vBool (pyLower value == "true"))
  | .vInt _ | .vRat _ =>
    if pyIsDigit value then .ok (.vInt (digitsToNat value.data))
    else
      match pyFloatOfString? value with
      | some q => .ok (.vRat q)
      | none => .error ("ValueError: could not convert string to float: " ++ value)
  | .vStr _ => .ok (.vStr value)

/-- The body of `Rule._evaluate_rule` before its `except` clause: parse the
predicate, read the field, convert the literal, evaluate the comparison;
any `.error` models an exception inside the `try`. -/
def evaluateRuleE (ruleStr : String) (pokemon : PokemonModel) : Except String Bool := do
  let fov ← Operator.parse ruleStr
  let actual ← getattr pokemon fov.1
  let expected ← convertValue fov.2.2 actual
  Operator.evaluate fov.2.1 actual expected

/-- Embedding of `Rule._evaluate_rule`: the `except` clause turns any raised
exception into `False`. -/
def evaluate_rule (ruleStr : String) (pokemon : PokemonModel) : Bool :=
  match evaluateRuleE ruleStr pokemon with
  | .ok b => b
  | .error _ => false

/-- Embedding of `RuleModel` from `app/models/pokemon_models.py` (the Python
field `match` is a Lean keyword, hence `matchRules`). -/
structure RuleModel where
  url : String
  reason : String
  matchRules : List String
deriving DecidableEq

/-- Embedding of the `Rule` class: the fields copied from a `RuleModel`. -/
structure Rule where
  url : String
  reason : String
  match_rules : List String
deriving DecidableEq

/-- Embedding of `Rule.__init__`. -/
def Rule.ofModel (rule_config : RuleModel) : Rule :=
  ⟨rule_config.url, rule_config.reason, rule_config.matchRules⟩

/-- Embedding of `Rule.matches`: an empty predicate list matches everything,
otherwise every predicate must hold (the loop returns at the first failure). -/
def Rule.matches (r : Rule) (pokemon : PokemonModel) : Bool :=
  if r.match_rules.isEmpty then true
  else r.match_rules.all (fun ruleStr => evaluate_rule ruleStr pokemon)

/-- Embedding of `find_matching_rule`: walk the rule list in order and return
the first rule that matches, `none` when no rule does. -/
def find_matching_rule (pokemon_model : PokemonModel) : List RuleModel → Option Rule
  | [] => none
  | rule_config :: rest =>
    let r := Rule.ofModel rule_config
    if r.matches pokemon_model then some r else find_matching_rule pokemon_model rest

/-- Modelled from the spec: `find_all_matching_rules` is imported by
`app/api/routes.py` from `app.core.rules` and invoked by the `/stream`
handler, but its definition is not present in the source tree. The spec
defines `allMatches(record, rules)` as the same evaluation as `firstMatch`,
collecting every satisfying rule, preserving list order, and returning the
empty list when none is satisfied. -/
def find_all_matching_rules (pokemon_model : PokemonModel) : List RuleModel → List Rule
  | [] => []
  | rule_config :: rest =>
    let r := Rule.ofModel rule_config
    if r.matches pokemon_model then r :: find_all_matching_rules pokemon_model rest
    else find_all_matching_rules pokemon_model rest

/-! ## Outbound headers (embedding of `prepare_outgoing_headers` and the
per-destination header construction in `forward_to_multiple_destinations`) -/

/-- Python dict over string keys, as an insertion-ordered association list
with unique keys. -/
abbrev Headers := List (String × String)

/-- Python dict assignment `h[k] = v`: overwrite in place when the key exists,
append otherwise. -/
def dictSet (k v : String) (h : Headers) : Headers :=
  if (h.lookup k).isSome then h.map (fun p => if p.1 = k then (p.1, v) else p)
  else h ++ [(k, v)]

/-- Python `del h[k]` for a key known to be present. -/
def dictDelete (k : String) (h : Headers) : Headers := h.filter (fun p => p.1 ≠ k)

/-- Python dict built from a pair sequence (a dict comprehension): entries in
order, a later duplicate key overwriting an earlier one. -/
def dictOfPairs (l : List (String × String)) : Headers :=
  l.foldl (fun h p => dictSet p.1 p.2 h) []

/-- Embedding of `prepare_outgoing_headers`: copy every inbound header whose
lowercased name is not `x-grd-signature`, then set `X-Grd-Reason`. -/
def prepare_outgoing_headers (requestHeaders : List (String × String)) (reason : String) :
    Headers :=
  dictSet "X-Grd-Reason" reason
    (dictOfPairs (requestHeaders.filter (fun p => pyLower p.1 ≠ "x-grd-signature")))

/-- Per-destination headers built inside `forward_to_multiple_destinations`:
copy the base headers, overwrite `X-Grd-Reason` with this rule's reason, set
`Content-Type` to `application/json`, and delete a `content-length` entry
(exact lowercase key) when present. -/
def outboundHeaders (r : Rule) (base : Headers) : Headers :=
  let h1 := dictSet "X-Grd-Reason" r.reason base
  let h2 := dictSet "Content-Type" "application/json" h1
  if (h2.lookup "content-length").isSome then dictDelete "content-length" h2 else h2

/-! ## Dispatch and the `/stream` pipeline (embedding of `app/api/routes.py`) -/

/-- Oracle outcome of one outbound `client.post`: a response with a status
code and a content length, an `httpx.RequestError`, or any other exception
(the network itself is an external collaborator). -/
inductive DeliveryResult where
  | success (statusCode : Nat) (contentLength : Nat)
  | requestError (msg : String)
  | unexpectedError (msg : String)
deriving DecidableEq

/-- One entry of the aggregated `responses` list (response content and headers
carry no information the claims constrain, and are omitted). -/
structure ResponseData where
  url : String
  reason : String
  status_code : Nat
  errorMsg : Option String
deriving DecidableEq

/-- Result processing for one destination inside
`forward_to_multiple_destinations`: build the response entry and update the
response stats; every path passes `0` as the response-time sample, and the
two exception arms record an error with `502`/`500`. -/
def processDelivery (r : Rule) (res : DeliveryResult)
    (acc : List ResponseData × StatsStore) : List ResponseData × StatsStore :=
  match res with
  | .success code clen =>
    (acc.1 ++ [⟨r.url, r.reason, code, none⟩],
     update_response_stats r.url clen 0 (decide (code ≥ 400)) acc.2)
  | .requestError m =>
    (acc.1 ++ [⟨r.url, r.reason, 502, some ("Error communicating with destination: " ++ m)⟩],
     update_response_stats r.url 0 0 true acc.2)
  | .unexpectedError m =>
    (acc.1 ++ [⟨r.url, r.reason, 500, some ("Internal server error: " ++ m)⟩],
     update_response_stats r.url 0 0 true acc.2)

/-- Embedding of `forward_to_multiple_destinations`: given the oracle of
per-destination outcomes, collect the response entries in destination-list
order and thread the statistics store through. -/
def forward_to_multiple_destinations (destinations : List Rule)
    (deliver : Nat → Rule → DeliveryResult) (st : StatsStore) :
    List ResponseData × StatsStore :=
  destinations.enum.foldl (fun acc ir => processDelivery ir.2 (deliver ir.1 ir.2) acc) ([], st)

/-- Python `str()` of the model's `name` field as used in the handler's
response strings. -/
def pokemonName (p : PokemonModel) : String :=
  match p.name with
  | .vStr s => s
  | .vInt n => toString n
  | .vRat _ => "?"
  | .vBool b => if b then "True" else "False"

/-- Outcome of one `/stream` request as seen by the caller. -/
inductive StreamOutcome where
  | unauthorized (detail : String)
  | badRequest (detail : String)
  | noMatch (status : String)
  | success (pokemon : String) (matched_rules_count : Nat) (responses : List ResponseData)
deriving DecidableEq

/-- Embedding of the `/stream` handler: signature check, decode (the protobuf
codec is an external collaborator, so the decode result is a parameter; an
`.error` is the `HTTPException(400)` of `parse_pokemon_data`), validation,
rule lookup, request-stats update for each matched rule, and concurrent
forwarding via the delivery oracle. -/
def stream (signatureValid : Bool) (decodeResult : Except String (List (String × JsonVal)))
    (bodyLen : Nat) (rules : List RuleModel) (deliver : Nat → Rule → DeliveryResult)
    (st : StatsStore) : StreamOutcome × StatsStore :=
  if !signatureValid then (.unauthorized "Invalid signature", st)
  else
    match decodeResult with
    | .error _ => (.badRequest "Invalid or corrupted protobuf message", st)
    | .ok pokemonJson =>
      let pm := validate_pokemon_model pokemonJson
      let matched := find_all_matching_rules pm rules
      if matched.isEmpty then
        (.noMatch ("No matching rules found for Pokemon " ++ pokemonName pm), st)
      else
        let st1 := matched.foldl (fun s r => update_request_stats r.url bodyLen s) st
        let fwd := forward_to_multiple_destinations matched deliver st1
        (.success (pokemonName pm) matched.length fwd.1, fwd.2)

/-! ## Concrete fixtures used by witnesses and counterexamples -/

/-- Rule that does not match the default record (`attack` is 0). -/
def ruleA : RuleModel := ⟨"http://a", "reason-a", ["attack>100"]⟩

/-- Rule with an empty predicate list: matches every record. -/
def ruleB : RuleModel := ⟨"http://b", "reason-b", []⟩

/-- Second rule with an empty predicate list. -/
def ruleC : RuleModel := ⟨"http://c", "reason-c", []⟩

/-- Record with `legendary = True`. -/
def pLegendary : PokemonModel := { defaultPokemon with legendary := .vBool true }

/-- Record with `type_one = "Fire"`. -/
def pFire : PokemonModel := { defaultPokemon with type_one := .vStr "Fire" }

/-- Base64 encoding of the secret key bytes of `"secret"`. -/
def secret0 : String := "c2VjcmV0"

/-- The bytes of `"secret"`. -/
def key0 : List Nat := [115, 101, 99, 114, 101, 116]

/-- The body bytes of `"abc"`. -/
def body0 : List Nat := [97, 98, 99]

/-- The body with a single bit flipped in its first byte. -/
def body0Flipped : List Nat := [96, 98, 99]

/-- The correct signature of `body0` under `secret0`, with the lowest bit of
its first hex digit flipped (`9` to `8`). -/
def sig0Flipped : String :=
  "8946dad4e00e913fc8be8e5d3f7e110a4a9e832f83fb09c345285d78638d8a0e"

/-- Base64 encoding of a different secret, the bytes of `"other"`. -/
def secretOther : String := "b3RoZXI="

/-- Destination used in the statistics scenario. -/
def d0 : String := "http://destination"

/-- Raw decode whose `attack` value violates the `ge=0` constraint. -/
def badJson : List (String × JsonVal) := [("attack", JsonVal.vInt (-5))]

/-- Inbound headers containing a `content-length` entry. -/
def inbound0 : List (String × String) :=
  [("host", "example"), ("content-length", "3"), ("x-grd-signature", "deadbeef")]

/-- Rule used in the header scenario. -/
def rule0 : Rule := ⟨"http://b", "matched because b", []⟩

/-! ## Claim C1: first-match semantics of `find_matching_rule` -/

/-- C1: for every record and rule list, `find_matching_rule` iterates the
rules in declared order and returns the first rule whose predicate list is
fully satisfied; a rule with an empty predicate list is satisfied by every
record; `None` is returned exactly when no rule is satisfied. -/
theorem C1_first_match (pokemon : PokemonModel) (rules : List RuleModel) :
    (∀ r : Rule, find_matching_rule pokemon rules = some r →
      ∃ i, i < rules.length ∧ r = Rule.ofModel (rules.getD i ⟨"", "", []⟩) ∧
        r.matches pokemon = true ∧
        ∀ j, j < i → (Rule.ofModel (rules.getD j ⟨"", "", []⟩)).matches pokemon = false)
    ∧ (find_matching_rule pokemon rules = none ↔
        ∀ rc ∈ rules, (Rule.ofModel rc).matches pokemon = false)
    ∧ (∀ rc : RuleModel, rc.matchRules = [] → (Rule.ofModel rc).matches pokemon = true) := by
  refine ⟨?_, ?_, ?_⟩
  · induction rules with
    | nil => intro r hr; simp [find_matching_rule] at hr
    | cons rc rest ih =>
      intro r hr
      cases hm : (Rule.ofModel rc).matches pokemon with
      | true =>
        simp only [find_matching_rule, hm, if_true] at hr
        refine ⟨0, by simp, ?_, ?_, ?_⟩
        · simpa [List.getD] using hr.symm
        · cases hr; exact hm
        · intro j hj; exact absurd hj (Nat.not_lt_zero j)
      | false =>
        simp only [find_matching_rule, hm, Bool.false_eq_true, if_false] at hr
        obtain ⟨i, hi, heq, hmatch, hprev⟩ := ih r hr
        refine ⟨i + 1, by simpa using hi, by simpa [List.getD_cons_succ] using heq, hmatch, ?_⟩
        intro j hj
        cases j with
        | zero => simpa [List.getD] using hm
        | succ j => exact hprev j (by omega)
  · induction rules with
    | nil => simp [find_matching_rule]
    | cons rc rest ih =>
      cases hm : (Rule.ofModel rc).matches pokemon with
      | true => simp [find_matching_rule, hm]
      | false => simp [find_matching_rule, hm, ih]
  · intro rc h
    simp [Rule.matches, Rule.ofModel, h]

/-- C1 witness: on the spec's example shape (a non-matching rule followed by
two universally matching ones) the theorem yields the concrete first match. -/
theorem C1_first_match_witness :
    ∃ i, i < ([ruleA, ruleB, ruleC] : List RuleModel).length ∧
      Rule.ofModel ruleB = Rule.ofModel ([ruleA, ruleB, ruleC].getD i ⟨"", "", []⟩) ∧
      (Rule.ofModel ruleB).matches defaultPokemon = true ∧
      ∀ j, j < i →
        (Rule.ofModel ([ruleA, ruleB, ruleC].getD j ⟨"", "", []⟩)).matches defaultPokemon = false :=
  (C1_first_match defaultPokemon [ruleA, ruleB, ruleC]).1 (Rule.ofModel ruleB) (by decide)

/-! ## Claim C2: all-matches semantics of `find_all_matching_rules` -/

/-- C2: `find_all_matching_rules` (the function the `/stream` handler
invokes; modelled from the spec because its definition is absent from the
source tree) returns exactly the rules whose predicate lists are satisfied,
in declared order, and the empty list when none is satisfied. -/
theorem C2_all_matches (pokemon : PokemonModel) (rules : List RuleModel) :
    find_all_matching_rules pokemon rules
      = (rules.filter (fun rc => (Rule.ofModel rc).matches pokemon)).map Rule.ofModel
    ∧ ((∀ rc ∈ rules, (Rule.ofModel rc).matches pokemon = false) →
        find_all_matching_rules pokemon rules = []) := by
  have hmain : find_all_matching_rules pokemon rules
      = (rules.filter (fun rc => (Rule.ofModel rc).matches pokemon)).map Rule.ofModel := by
    induction rules with
    | nil => rfl
    | cons rc rest ih =>
      cases hm : (Rule.ofModel rc).matches pokemon with
      | true => simp [find_all_matching_rules, hm, ih, List.filter_cons]
      | false => simp [find_all_matching_rules, hm, ih, List.filter_cons]
  refine ⟨hmain, ?_⟩
  intro h
  rw [hmain]
  have : rules.filter (fun rc => (Rule.ofModel rc).matches pokemon) = [] := by
    rw [List.filter_eq_nil_iff]
    intro rc hrc
    simp [h rc hrc]
  simp [this]

/-- C2 witness: the theorem applied to the spec's example (first rule not
matching, the next two matching) produces `[B, C]` in order, and applied to a
list with no matching rule produces the empty list. -/
theorem C2_all_matches_witness :
    find_all_matching_rules defaultPokemon [ruleA, ruleB, ruleC]
        = [Rule.ofModel ruleB, Rule.ofModel ruleC]
    ∧ find_all_matching_rules defaultPokemon [ruleA] = [] :=
  ⟨((C2_all_matches defaultPokemon [ruleA, ruleB, ruleC]).1).trans (by decide),
   (C2_all_matches defaultPokemon [ruleA]).2 (by decide)⟩

/-! ## Claim C3: behavior of `Operator.parse` -/

/-- C3 counterexample: the claim states that an input whose field or value is
empty after trimming makes `parse` fail, but `Operator.parse` accepts both an
empty field and an empty value, returning them in the triple (the rejection
happens only later, at evaluation time). -/
theorem C3_parse_counterexample :
    Operator.parse "==80" = .ok ("", "==", "80")
    ∧ Operator.parse "attack>" = .ok ("attack", ">", "") :=
  ⟨rfl, rfl⟩

/-- C3 (amended): `parse` splits on the first occurrence of an operator in
the fixed priority order `==`, `!=`, `>`, `<` and trims surrounding
whitespace (the three concrete examples of the claim hold, and `a<b>c`
witnesses the priority of `>` over `<`); an input containing none of the four
operators makes `parse` raise `ValueError` (an `.error` value, which the rule
evaluator catches); an input with an empty field or value after trimming is
accepted by `parse`, not rejected — an empty field then degrades to a
non-match at evaluation time (the `AttributeError` is caught), while an empty
value is not rejected at all: `type_one==` matches a record whose `type_one`
is `""`, and `legendary==` matches a record whose `legendary` is `False`. -/
theorem C3_parse_amended :
    Operator.parse "attack>80" = .ok ("attack", ">", "80")
    ∧ Operator.parse "type_two!=word" = .ok ("type_two", "!=", "word")
    ∧ Operator.parse "generation< 20" = .ok ("generation", "<", "20")
    ∧ Operator.parse "a<b>c" = .ok ("a<b", ">", "c")
    ∧ (∀ s : String, pyContains s "==" = false → pyContains s "!=" = false →
        pyContains s ">" = false → pyContains s "<" = false →
        Operator.parse s = .error ("Invalid rule format: " ++ s))
    ∧ Operator.parse "==80" = .ok ("", "==", "80")
    ∧ evaluate_rule "==80" defaultPokemon = false
    ∧ evaluate_rule "type_one==" defaultPokemon = true
    ∧ evaluate_rule "legendary==" defaultPokemon = true := by
  refine ⟨rfl, rfl, rfl, rfl, ?_, rfl, rfl, rfl, rfl⟩
  intro s h1 h2 h3 h4
  have e1 : splitFirstAux ("==".data) s.data = none := by
    cases o : splitFirstAux ("==".data) s.data with
    | none => rfl
    | some ab => rw [pyContains, o] at h1; simp at h1
  have e2 : splitFirstAux ("!=".data) s.data = none := by
    cases o : splitFirstAux ("!=".data) s.data with
    | none => rfl
    | some ab => rw [pyContains, o] at h2; simp at h2
  have e3 : splitFirstAux (">".data) s.data = none := by
    cases o : splitFirstAux (">".data) s.data with
    | none => rfl
    | some ab => rw [pyContains, o] at h3; simp at h3
  have e4 : splitFirstAux ("<".data) s.data = none := by
    cases o : splitFirstAux ("<".data) s.data with
    | none => rfl
    | some ab => rw [pyContains, o] at h4; simp at h4
  simp [Operator.parse, splitOnFirst?, e1, e2, e3, e4]

/-- C3 witness: the theorem applied to a concrete operator-free input. -/
theorem C3_parse_witness :
    Operator.parse "nonsense" = .error ("Invalid rule format: " ++ "nonsense") :=
  C3_parse_amended.2.2.2.2.1 "nonsense" rfl rfl rfl rfl

/-! ## Claim C7: decode failure rejects and leaves the statistics untouched -/

/-- C7: when the body cannot be decoded as the binary record schema, the
pipeline returns the 400 client-error outcome with its diagnostic detail, no
record or responses are produced, and the statistics store is returned
entirely unchanged, for every destination. -/
theorem C7_decode_failure (msg : String) (bodyLen : Nat) (rules : List RuleModel)
    (deliver : Nat → Rule → DeliveryResult) (st : StatsStore) :
    stream true (.error msg) bodyLen rules deliver st
      = (.badRequest "Invalid or corrupted protobuf message", st) := rfl

/-! ## Statistics lemmas -/

theorem lookup_append_or {β : Type} (l1 l2 : List (String × β)) (k : String) :
    List.lookup k (l1 ++ l2) = (List.lookup k l1).or (List.lookup k l2) := by
  induction l1 with
  | nil => simp
  | cons p l ih =>
    obtain ⟨a, b⟩ := p
    by_cases hk : k = a
    · subst hk; simp [List.lookup_cons]
    · simp [List.lookup_cons, beq_false_of_ne hk, ih]

theorem lookup_setStat_self (url : String) (f : EndpointStats → EndpointStats) (st : StatsStore) :
    List.lookup url (setStat url f st) = (List.lookup url st).map f := by
  induction st with
  | nil => simp [setStat]
  | cons p l ih =>
    obtain ⟨a, s⟩ := p
    by_cases ha : url = a
    · subst ha; simp [setStat, List.lookup_cons] at ih ⊢
    · simp [setStat, List.lookup_cons, beq_false_of_ne ha, Ne.symm ha] at ih ⊢
      exact ih

theorem lookup_setStat_other (u url : String) (hne : u ≠ url)
    (f : EndpointStats → EndpointStats) (st : StatsStore) :
    List.lookup u (setStat url f st) = List.lookup u st := by
  induction st with
  | nil => simp [setStat]
  | cons p l ih =>
    obtain ⟨a, s⟩ := p
    by_cases ha : a = url
    · subst ha
      simp [setStat, List.lookup_cons, beq_false_of_ne hne] at ih ⊢
      exact ih
    · by_cases hu : u = a
      · subst hu; simp [setStat, List.lookup_cons, ha]
      · simp [setStat, List.lookup_cons, ha, beq_false_of_ne hu] at ih ⊢
        exact ih

theorem lookup_init_self (url : String) (st : StatsStore) :
    List.lookup url (init_stats url st) = some (getStats st url) := by
  unfold init_stats getStats
  cases h : List.lookup url st with
  | some s => simp [h]
  | none => simp [h, lookup_append_or, List.lookup_cons]

theorem lookup_init_other (u url : String) (hne : u ≠ url) (st : StatsStore) :
    List.lookup u (init_stats url st) = List.lookup u st := by
  unfold init_stats
  cases h : List.lookup url st with
  | some s => simp [h]
  | none => simp [h, lookup_append_or, List.lookup_cons, beq_false_of_ne hne]

theorem timesOf_update_response (url u : String) (len : Nat) (t : ℚ) (e : Bool)
    (st : StatsStore) :
    timesOf (update_response_stats url len t e st) u
      = if u = url then timesOf st u ++ [t] else timesOf st u := by
  unfold update_response_stats timesOf getStats
  by_cases hu : u = url
  · subst hu; rw [lookup_setStat_self, lookup_init_self]; simp [getStats]
  · rw [lookup_setStat_other u url hu, lookup_init_other u url hu, if_neg hu]

theorem timesOf_update_request (url u : String) (len : Nat) (st : StatsStore) :
    timesOf (update_request_stats url len st) u = timesOf st u := by
  unfold update_request_stats timesOf getStats
  by_cases hu : u = url
  · subst hu; rw [lookup_setStat_self, lookup_init_self]; simp [getStats]
  · rw [lookup_setStat_other u url hu, lookup_init_other u url hu]

theorem roundF_zero : roundF 0 = 0 := by simp [roundF]

theorem sumF_zeros (l : List ℚ) : (∀ t ∈ l, t = 0) → sumF l = 0 := by
  unfold sumF
  induction l with
  | nil => intro _; rfl
  | cons t l ih =>
    intro h
    rw [List.foldl_cons, h t (List.mem_cons_self t l)]
    rw [show fadd 0 0 = 0 by simp [fadd, roundF]]
    exact ih (fun x hx => h x (List.mem_cons_of_mem _ hx))

theorem forward_times (deliver : Nat → Rule → DeliveryResult) (l : List (Nat × Rule))
    (rs : List ResponseData) (st : StatsStore) (url : String) :
    ∃ k, timesOf (l.foldl (fun acc ir => processDelivery ir.2 (deliver ir.1 ir.2) acc) (rs, st)).2 url
      = timesOf st url ++ List.replicate k 0 := by
  induction l generalizing rs st with
  | nil => exact ⟨0, by simp⟩
  | cons ir l ih =>
    have hstep : ∃ resp clen e, processDelivery ir.2 (deliver ir.1 ir.2) (rs, st)
        = (rs ++ [resp], update_response_stats ir.2.url clen 0 e st) := by
      rcases deliver ir.1 ir.2 with ⟨code, clen⟩ | m | m
      · exact ⟨_, _, _, rfl⟩
      · exact ⟨_, _, _, rfl⟩
      · exact ⟨_, _, _, rfl⟩
    obtain ⟨resp, clen, e, hstep⟩ := hstep
    rw [List.foldl_cons, hstep]
    obtain ⟨k, hk⟩ := ih (rs ++ [resp]) (update_response_stats ir.2.url clen 0 e st)
    rw [hk, timesOf_update_response]
    by_cases hu : url = ir.2.url
    · exact ⟨k + 1, by simp [hu, List.replicate_succ]⟩
    · exact ⟨k, by simp [hu]⟩

/-! ## Claim C10: the multi-destination path records only zero time samples -/

/-- C10: every response-time sample recorded through
`forward_to_multiple_destinations` is the constant 0 (the success arm and
both error arms all pass 0), so the samples of a destination only grow by
zeros; and a destination whose samples are all zero reports
`avg_response_time_ms = 0` from the stats computation. -/
theorem C10_zero_time_samples (destinations : List Rule) (deliver : Nat → Rule → DeliveryResult)
    (st : StatsStore) (url : String) :
    (∃ k, timesOf (forward_to_multiple_destinations destinations deliver st).2 url
        = timesOf st url ++ List.replicate k 0)
    ∧ (∀ s : EndpointStats, (∀ t ∈ s.response_times, t = 0) →
        (calculate_endpoint_stats s).avg_response_time_ms = 0) := by
  constructor
  · unfold forward_to_multiple_destinations
    exact forward_times deliver _ [] st url
  · intro s h
    unfold calculate_endpoint_stats
    by_cases he : s.response_times.isEmpty
    · simp [he]
    · simp only [he, if_false, Bool.false_eq_true]
      rw [sumF_zeros _ h]
      simp [fdiv, fmul, roundF_zero]

/-- C10 witness: the theorem applied to a one-destination delivery that
appends a zero sample to an empty store, and to counters whose two samples
are both zero. -/
theorem C10_zero_time_samples_witness :
    (∃ k, timesOf (forward_to_multiple_destinations [rule0] (fun _ _ => .success 200 5) []).2 "http://b"
        = timesOf ([] : StatsStore) "http://b" ++ List.replicate k 0)
    ∧ (calculate_endpoint_stats ⟨2, 1, 100, 200, [0, 0]⟩).avg_response_time_ms = 0 :=
  ⟨(C10_zero_time_samples [rule0] (fun _ _ => .success 200 5) [] "http://b").1,
   (C10_zero_time_samples [] (fun _ _ => .requestError "") [] d0).2 ⟨2, 1, 100, 200, [0, 0]⟩
     (by decide)⟩

/-! ## Claim C6: the snapshot metrics of the statistics store -/

/-- C6 counterexample: running exactly the claim's scenario
(`recordRequest(d, 100)`, `recordResponse(d, 200, 0.05, false)`,
`recordResponse(d, 0, 0.1, true)`) yields an `error_rate` of 100, not 50.0
(only one request was ever recorded, so `errorCount/requestCount*100 =
1/1*100`), and an `avg_response_time_ms` different from 75 (in binary64,
`(0.05+0.1)/2*1000 = 75.00000000000001`). -/
theorem C6_stats_counterexample :
    (calculate_endpoint_stats (getStats (update_response_stats d0 0 (flit (1/10)) true
        (update_response_stats d0 200 (flit (1/20)) false
          (update_request_stats d0 100 []))) d0)).error_rate ≠ 50
    ∧ (calculate_endpoint_stats (getStats (update_response_stats d0 0 (flit (1/10)) true
        (update_response_stats d0 200 (flit (1/20)) false
          (update_request_stats d0 100 []))) d0)).avg_response_time_ms ≠ 75 := by
  exact ⟨by decide, by decide⟩

/-- C6 (amended): `calculate_endpoint_stats` computes
`errorRate = errorCount / requestCount * 100` with 0 when the request count
is 0 (never a division fault) and `avgResponseTimeMs = mean(samples) * 1000`
with 0 when there are no samples; after `recordRequest(d, 100)` and
`recordResponse(d, 200, 0.05, false)` the snapshot is `{request_count: 1,
error_rate: 0, bytes_in: 100, bytes_out: 200, avg_response_time_ms: 50}`;
after one more `recordResponse(d, 0, 0.1, true)` the error rate is 100.0
(the request count is still 1) and the average response time is the binary64
value `75.00000000000001` (exactly `5277655813324801 / 2^46`), not 75. -/
theorem C6_stats_amended (s : EndpointStats) :
    (s.request_count = 0 → (calculate_endpoint_stats s).error_rate = 0)
    ∧ (s.response_times = [] → (calculate_endpoint_stats s).avg_response_time_ms = 0)
    ∧ calculate_endpoint_stats (getStats (update_response_stats d0 200 (flit (1/20)) false
        (update_request_stats d0 100 [])) d0) = ⟨1, 0, 100, 200, 50⟩
    ∧ (calculate_endpoint_stats (getStats (update_response_stats d0 0 (flit (1/10)) true
        (update_response_stats d0 200 (flit (1/20)) false
          (update_request_stats d0 100 []))) d0)).error_rate = 100
    ∧ (calculate_endpoint_stats (getStats (update_response_stats d0 0 (flit (1/10)) true
        (update_response_stats d0 200 (flit (1/20)) false
          (update_request_stats d0 100 []))) d0)).avg_response_time_ms
      = (5277655813324801 : ℚ) / 70368744177664 := by
  refine ⟨?_, ?_, by decide, by decide, by decide⟩
  · intro h; simp [calculate_endpoint_stats, h]
  · intro h; simp [calculate_endpoint_stats, h]

/-- C6 witness: the theorem applied to the empty counters discharges both
zero-guard hypotheses. -/
theorem C6_stats_witness :
    (calculate_endpoint_stats emptyEndpointStats).error_rate = 0
    ∧ (calculate_endpoint_stats emptyEndpointStats).avg_response_time_ms = 0 :=
  ⟨(C6_stats_amended emptyEndpointStats).1 rfl, (C6_stats_amended emptyEndpointStats).2.1 rfl⟩

/-! ## Header dictionary lemmas -/

theorem lookup_map_overwrite (k v : String) (h : Headers) :
    List.lookup k (h.map (fun p => if p.1 = k then (p.1, v) else p))
      = (List.lookup k h).map (fun _ => v) := by
  induction h with
  | nil => simp
  | cons p l ih =>
    obtain ⟨a, b⟩ := p
    by_cases ha : a = k
    · subst ha; simp [List.lookup_cons]
    · simp [List.lookup_cons, ha, beq_false_of_ne (Ne.symm ha), ih]

theorem lookup_map_overwrite_other (k koth v : String) (hne : koth ≠ k) (h : Headers) :
    List.lookup koth (h.map (fun p => if p.1 = k then (p.1, v) else p))
      = List.lookup koth h := by
  induction h with
  | nil => simp
  | cons p l ih =>
    obtain ⟨a, b⟩ := p
    by_cases ha : a = k
    · subst ha; simp [List.lookup_cons, beq_false_of_ne hne, ih]
    · by_cases hk : koth = a
      · subst hk; simp [List.lookup_cons, ha]
      · simp [List.lookup_cons, ha, beq_false_of_ne hk, ih]

theorem lookup_dictSet_self (k v : String) (h : Headers) :
    List.lookup k (dictSet k v h) = some v := by
  unfold dictSet
  by_cases hs : (List.lookup k h).isSome
  · rw [if_pos hs, lookup_map_overwrite]
    obtain ⟨w, hw⟩ := Option.isSome_iff_exists.mp hs
    simp [hw]
  · rw [if_neg hs, lookup_append_or]
    cases hl : List.lookup k h with
    | some w => rw [hl] at hs; simp at hs
    | none => simp [List.lookup_cons]

theorem lookup_dictSet_other (k koth v : String) (hne : koth ≠ k) (h : Headers) :
    List.lookup koth (dictSet k v h) = List.lookup koth h := by
  unfold dictSet
  by_cases hs : (List.lookup k h).isSome
  · rw [if_pos hs, lookup_map_overwrite_other k koth v hne]
  · rw [if_neg hs, lookup_append_or]
    simp [List.lookup_cons, beq_false_of_ne hne]

theorem lookup_foldl_dictSet (l : List (String × String)) (h : Headers) (k : String) :
    List.lookup k (l.foldl (fun h p => dictSet p.1 p.2 h) h)
      = (List.lookup k l.reverse).or (List.lookup k h) := by
  induction l generalizing h with
  | nil => simp
  | cons p l ih =>
    rw [List.foldl_cons, ih, List.reverse_cons, lookup_append_or]
    cases hl : List.lookup k l.reverse with
    | some w => simp
    | none =>
      simp only [Option.none_or]
      obtain ⟨a, b⟩ := p
      by_cases hk : k = a
      · subst hk; simp [lookup_dictSet_self, List.lookup_cons]
      · simp [lookup_dictSet_other a k b hk, List.lookup_cons, beq_false_of_ne hk]

theorem lookup_dictOfPairs (l : List (String × String)) (k : String) :
    List.lookup k (dictOfPairs l) = List.lookup k l.reverse := by
  unfold dictOfPairs
  rw [lookup_foldl_dictSet]
  simp

theorem lookup_filter_keep {β : Type} (q : (String × β) → Bool) (l : List (String × β))
    (k : String) (hq : ∀ v, q (k, v) = true) :
    List.lookup k (l.filter q) = List.lookup k l := by
  induction l with
  | nil => simp
  | cons p l ih =>
    obtain ⟨a, b⟩ := p
    by_cases hk : k = a
    · subst hk; simp [List.filter_cons, hq b, List.lookup_cons]
    · by_cases hqa : q (a, b) = true
      · simp [List.filter_cons, hqa, List.lookup_cons, beq_false_of_ne hk, ih]
      · simp only [List.filter_cons, hqa, Bool.false_eq_true, if_false, ih,
          List.lookup_cons, beq_false_of_ne hk]

theorem lookup_filter_drop {β : Type} (q : (String × β) → Bool) (l : List (String × β))
    (k : String) (hq : ∀ v, q (k, v) = false) :
    List.lookup k (l.filter q) = none := by
  induction l with
  | nil => simp
  | cons p l ih =>
    obtain ⟨a, b⟩ := p
    by_cases hk : k = a
    · subst hk; simp [List.filter_cons, hq b, ih]
    · by_cases hqa : q (a, b) = true
      · simp [List.filter_cons, hqa, List.lookup_cons, beq_false_of_ne hk, ih]
      · simp only [List.filter_cons, hqa, Bool.false_eq_true, if_false, ih]

theorem lookup_dictDelete_self (k : String) (h : Headers) :
    List.lookup k (dictDelete k h) = none := by
  unfold dictDelete
  exact lookup_filter_drop _ h k (fun v => by simp)

theorem lookup_dictDelete_other (k koth : String) (hne : koth ≠ k) (h : Headers) :
    List.lookup koth (dictDelete k h) = List.lookup koth h := by
  unfold dictDelete
  exact lookup_filter_keep _ h koth (fun v => by simp [hne])

/-! ## Claim C9: the outbound header set -/

/-- C9 counterexample: the claim says exactly the signature header is removed
and no other inbound header is removed or altered, but the dispatch path also
deletes the inbound `content-length` header (which is not the signature
header) before forwarding. -/
theorem C9_headers_counterexample :
    List.lookup "content-length" inbound0 = some "3"
    ∧ pyLower "content-length" ≠ "x-grd-signature"
    ∧ List.lookup "content-length"
        (outboundHeaders rule0 (prepare_outgoing_headers inbound0 "Multiple Rules")) = none :=
  ⟨rfl, by decide, rfl⟩

/-- C9 (amended): the outbound header set equals the inbound request headers
with every header whose lowercased name is `x-grd-signature` removed and the
exact lowercase `content-length` key removed, plus `X-Grd-Reason` set to the
matching rule's reason and `Content-Type` set to `application/json`; every
other inbound header is forwarded unaltered (inbound headers read through
Python dict semantics, a later duplicate key overwriting an earlier one). -/
theorem C9_headers_amended (inbound : List (String × String)) (reason : String) (r : Rule)
    (k : String) :
    (List.lookup "X-Grd-Reason" (outboundHeaders r (prepare_outgoing_headers inbound reason))
        = some r.reason)
    ∧ (List.lookup "Content-Type" (outboundHeaders r (prepare_outgoing_headers inbound reason))
        = some "application/json")
    ∧ (List.lookup "content-length" (outboundHeaders r (prepare_outgoing_headers inbound reason))
        = none)
    ∧ (pyLower k = "x-grd-signature" →
        List.lookup k (outboundHeaders r (prepare_outgoing_headers inbound reason)) = none)
    ∧ (pyLower k ≠ "x-grd-signature" → k ≠ "content-length" → k ≠ "X-Grd-Reason" →
        k ≠ "Content-Type" →
        List.lookup k (outboundHeaders r (prepare_outgoing_headers inbound reason))
          = List.lookup k (dictOfPairs inbound)) := by
  have hcl : ∀ h2 : Headers,
      List.lookup "content-length"
        (if (h2.lookup "content-length").isSome then dictDelete "content-length" h2 else h2)
          = none := by
    intro h2
    by_cases hs : (h2.lookup "content-length").isSome
    · rw [if_pos hs, lookup_dictDelete_self]
    · rw [if_neg hs]
      cases hl : List.lookup "content-length" h2 with
      | some w => rw [hl] at hs; simp at hs
      | none => rfl
  have hoth : ∀ (h2 : Headers) (kk : String), kk ≠ "content-length" →
      List.lookup kk
        (if (h2.lookup "content-length").isSome then dictDelete "content-length" h2 else h2)
          = List.lookup kk h2 := by
    intro h2 kk hkk
    by_cases hs : (h2.lookup "content-length").isSome
    · rw [if_pos hs, lookup_dictDelete_other "content-length" kk hkk]
    · rw [if_neg hs]
  refine ⟨?_, ?_, hcl _, ?_, ?_⟩
  · rw [show outboundHeaders r (prepare_outgoing_headers inbound reason) = _ from rfl]
    unfold outboundHeaders
    rw [hoth _ _ (by decide), lookup_dictSet_other _ _ _ (by decide), lookup_dictSet_self]
  · unfold outboundHeaders
    rw [hoth _ _ (by decide), lookup_dictSet_self]
  · intro hk
    have hk1 : k ≠ "content-length" := by
      intro he; rw [he] at hk; exact absurd hk (by decide)
    have hk2 : k ≠ "Content-Type" := by
      intro he; rw [he] at hk; exact absurd hk (by decide)
    have hk3 : k ≠ "X-Grd-Reason" := by
      intro he; rw [he] at hk; exact absurd hk (by decide)
    unfold outboundHeaders
    rw [hoth _ _ hk1, lookup_dictSet_other _ _ _ hk2, lookup_dictSet_other _ _ _ hk3]
    unfold prepare_outgoing_headers
    rw [lookup_dictSet_other _ _ _ hk3, lookup_dictOfPairs,
      ← List.filter_reverse, lookup_filter_drop]
    intro v
    simp [hk]
  · intro hk hk1 hk3 hk2
    unfold outboundHeaders
    rw [hoth _ _ hk1, lookup_dictSet_other _ _ _ hk2, lookup_dictSet_other _ _ _ hk3]
    unfold prepare_outgoing_headers
    rw [lookup_dictSet_other _ _ _ hk3, lookup_dictOfPairs,
      ← List.filter_reverse, lookup_filter_keep, lookup_dictOfPairs]
    intro v
    simp [hk]

/-- C9 witness: the theorem applied at the concrete inbound header set with a
`content-length` entry: a plain header is preserved, the signature header is
gone. -/
theorem C9_headers_witness :
    List.lookup "host" (outboundHeaders rule0 (prepare_outgoing_headers inbound0 "Multiple Rules"))
        = List.lookup "host" (dictOfPairs inbound0)
    ∧ List.lookup "x-grd-signature"
        (outboundHeaders rule0 (prepare_outgoing_headers inbound0 "Multiple Rules")) = none :=
  ⟨(C9_headers_amended inbound0 "Multiple Rules" rule0 "host").2.2.2.2
      (by decide) (by decide) (by decide) (by decide),
   (C9_headers_amended inbound0 "Multiple Rules" rule0 "x-grd-signature").2.2.2.1 (by decide)⟩

/-! ## Claim C4: ordering operators on non-numeric fields -/

theorem exceptBind_ok {α β : Type} (x : α) (g : α → Except String β) :
    (Except.ok x >>= g) = g x := rfl

/-- C4 counterexample: for the predicate `legendary>false` against a record
with `legendary = True`, and for `type_one>Apple` against `type_one = "Fire"`,
evaluation does not raise but yields `True` (Python orders booleans as 0/1
and strings lexicographically), contradicting the claim that such predicates
always evaluate to false. -/
theorem C4_ordering_counterexample :
    evaluate_rule "legendary>false" pLegendary = true
    ∧ evaluate_rule "type_one>Apple" pFire = true :=
  ⟨rfl, rfl⟩

/-- C4 (amended): for every predicate whose operator is `>` or `<` and whose
named field holds a boolean or a string, evaluation never raises (the
conversion gives the two operands the same runtime type, so the comparison is
defined); the result is the Python comparison — booleans ordered as 0/1 and
strings ordered lexicographically by code point — which can be true, not a
uniform non-match. -/
theorem C4_ordering_amended (p : PokemonModel) (ruleStr f op v : String) (a : JsonVal)
    (hparse : Operator.parse ruleStr = .ok (f, op, v))
    (hop : op = ">" ∨ op = "<")
    (hget : getattr p f = .ok a)
    (hbs : (∃ b, a = .vBool b) ∨ (∃ s, a = .vStr s)) :
    (evaluateRuleE ruleStr p).isOk = true
    ∧ (∀ b, a = .vBool b →
        evaluate_rule ruleStr p
          = (if op = ">" then b && !(pyLower v == "true") else !b && (pyLower v == "true")))
    ∧ (∀ s, a = .vStr s →
        evaluate_rule ruleStr p
          = (if op = ">" then pyStrLt v.data s.data else pyStrLt s.data v.data)) := by
  rcases hbs with ⟨b, rfl⟩ | ⟨s, rfl⟩
  · have hE : evaluateRuleE ruleStr p
        = Operator.evaluate op (.vBool b) (.vBool (pyLower v == "true")) := by
      unfold evaluateRuleE
      rw [hparse, exceptBind_ok]
      simp only [hget, exceptBind_ok]
      rfl
    have hev : Operator.evaluate op (JsonVal.vBool b) (.vBool (pyLower v == "true"))
        = .ok (if op = ">" then b && !(pyLower v == "true") else !b && (pyLower v == "true")) := by
      rcases hop with rfl | rfl
      · cases b <;> cases hc : pyLower v == "true" <;>
          simp [Operator.evaluate, pyGt, pyLt, JsonVal.numVal?]
      · cases b <;> cases hc : pyLower v == "true" <;>
          simp [Operator.evaluate, pyGt, pyLt, JsonVal.numVal?]
    refine ⟨?_, ?_, ?_⟩
    · rw [hE, hev]; rfl
    · intro b2 hb2
      cases hb2
      unfold evaluate_rule
      rw [hE, hev]
    · intro s hs; cases hs
  · have hE : evaluateRuleE ruleStr p
        = Operator.evaluate op (.vStr s) (.vStr v) := by
      unfold evaluateRuleE
      rw [hparse, exceptBind_ok]
      simp only [hget, exceptBind_ok]
      rfl
    have hev : Operator.evaluate op (JsonVal.vStr s) (.vStr v)
        = .ok (if op = ">" then pyStrLt v.data s.data else pyStrLt s.data v.data) := by
      rcases hop with rfl | rfl
      · simp [Operator.evaluate, pyGt, pyLt, JsonVal.numVal?]
      · simp [Operator.evaluate, pyGt, pyLt, JsonVal.numVal?]
    refine ⟨?_, ?_, ?_⟩
    · rw [hE, hev]; rfl
    · intro b2 hb2; cases hb2
    · intro s2 hs2
      cases hs2
      unfold evaluate_rule
      rw [hE, hev]

/-- C4 witness: the theorem applied to the two concrete predicates of the
counterexample scenario. -/
theorem C4_ordering_witness :
    (evaluateRuleE "legendary>false" pLegendary).isOk = true
    ∧ evaluate_rule "type_one<Apple" pFire = false :=
  ⟨(C4_ordering_amended pLegendary "legendary>false" "legendary" ">" "false" (.vBool true)
      (by rfl) (Or.inl rfl) (by rfl) (Or.inl ⟨true, rfl⟩)).1,
   ((C4_ordering_amended pFire "type_one<Apple" "type_one" "<" "Apple" (.vStr "Fire")
      (by rfl) (Or.inr rfl) (by rfl) (Or.inr ⟨"Fire", rfl⟩)).2.2 "Fire" rfl).trans (by decide)⟩

/-! ## Claim C8: behavior of `validate_pokemon_model` -/

theorem readField_writeField (m : PokemonModel) (fid fid2 : FieldId) (v : JsonVal) :
    readField (writeField m fid v) fid2 = if fid2 = fid then v else readField m fid2 := by
  cases fid <;> cases fid2 <;> simp [readField, writeField]

theorem fieldIdOf?_fieldName (fid : FieldId) : fieldIdOf? (fieldName fid) = some fid := by
  cases fid <;> rfl

theorem fieldIdOf?_eq_some {s : String} {fid : FieldId} (h : fieldIdOf? s = some fid) :
    s = fieldName fid := by
  have hp := List.find?_some h
  exact (of_decide_eq_true hp).symm

theorem fieldName_inj {f1 f2 : FieldId} (h : fieldName f1 = fieldName f2) : f1 = f2 := by
  have h1 := fieldIdOf?_fieldName f1
  rw [h, fieldIdOf?_fieldName] at h1
  exact (Option.some.inj h1).symm

theorem readField_pySetattr (base : PokemonModel) (kk : String) (v : JsonVal) (fid : FieldId) :
    readField (pySetattr base kk v) fid
      = if kk = fieldName fid then v else readField base fid := by
  unfold pySetattr
  cases hof : fieldIdOf? kk with
  | none =>
    rw [if_neg]
    intro he
    rw [he, fieldIdOf?_fieldName] at hof
    cases hof
  | some fid2 =>
    have hkk : kk = fieldName fid2 := fieldIdOf?_eq_some hof
    rw [readField_writeField]
    by_cases hf : fid = fid2
    · subst hf
      rw [if_pos rfl, if_pos hkk]
    · rw [if_neg hf, if_neg]
      intro he
      exact hf (fieldName_inj (by rw [← he]; exact hkk))

theorem readField_setattr_fold (json : List (String × JsonVal)) (base : PokemonModel)
    (fid : FieldId) :
    readField (json.foldl (fun m p => pySetattr m p.1 p.2) base) fid
      = ((json.reverse.lookup (fieldName fid)).getD (readField base fid)) := by
  induction json generalizing base with
  | nil => simp
  | cons p l ih =>
    rw [List.foldl_cons, ih, List.reverse_cons, lookup_append_or]
    cases hl : List.lookup (fieldName fid) l.reverse with
    | some w => simp
    | none =>
      simp only [Option.none_or]
      obtain ⟨kk, v⟩ := p
      rw [readField_pySetattr]
      by_cases hk : kk = fieldName fid
      · rw [if_pos hk]
        simp [List.lookup_cons, hk]
      · rw [if_neg hk]
        simp [List.lookup_cons, beq_false_of_ne (fun he => hk he.symm)]

theorem pokemonModelValidate_fields {json : List (String × JsonVal)} {m : PokemonModel}
    (h : pokemonModelValidate json = some m) (fid : FieldId) :
    validateField fid json = some (readField m fid) := by
  unfold pokemonModelValidate at h
  simp only [Option.bind_eq_some, Option.some.injEq] at h
  obtain ⟨v0, h0, v1, h1, v2, h2, v3, h3, v4, h4, v5, h5, v6, h6, v7, h7, v8, h8, v9, h9,
    v10, h10, v11, h11, v12, h12, hm⟩ := h
  subst hm
  cases fid <;> assumption

/-- C8 counterexample: the claim says a field whose decoded value cannot be
coerced to its declared type reverts to that field's default while the other
fields are preserved; but for `{"attack": -5}` (which fails the `ge=0`
validation) the fallback path stores the raw `-5` in `attack` (no reversion
to the default 0), and the absent `name` field becomes `"Unknown"` rather
than keeping its declared `""` default. -/
theorem C8_validate_counterexample :
    (validate_pokemon_model badJson).attack = .vInt (-5)
    ∧ (validate_pokemon_model badJson).attack ≠ .vInt 0
    ∧ (validate_pokemon_model badJson).name = .vStr "Unknown" :=
  ⟨rfl, by decide, rfl⟩

/-- C8 (amended): `validate_pokemon_model` never fails and ignores unknown
fields. When the validating constructor succeeds, its result is returned and
every declared field absent from the map holds its declared zero/empty
default. When the constructor fails, the record is rebuilt field by field
with unvalidated `setattr` from `PokemonModel(name="Unknown")`: each declared
field present in the map keeps its raw decoded value (even an uncoercible
one), and each absent field keeps the base record's value — the defaults,
except `name`, which is `"Unknown"`. -/
theorem C8_validate_amended (json : List (String × JsonVal)) :
    (∀ m, pokemonModelValidate json = some m →
      validate_pokemon_model json = m
      ∧ ∀ fid, json.lookup (fieldName fid) = none →
          readField m fid = readField defaultPokemon fid)
    ∧ (pokemonModelValidate json = none →
        ∀ fid, readField (validate_pokemon_model json) fid
          = ((json.reverse.lookup (fieldName fid)).getD (readField fallbackBase fid))) := by
  constructor
  · intro m hm
    constructor
    · unfold validate_pokemon_model
      rw [hm]
    · intro fid hlook
      have h1 := pokemonModelValidate_fields hm fid
      unfold validateField at h1
      rw [hlook] at h1
      exact (Option.some.inj h1).symm
  · intro hnone fid
    unfold validate_pokemon_model
    rw [hnone]
    exact readField_setattr_fold json fallbackBase fid

/-- C8 witness: the theorem applied to the failing map `{"attack": -5}`
(fallback path keeps the raw value) and to the valid map `{"attack": 7}`
(validating path, absent fields at their defaults). -/
theorem C8_validate_witness :
    readField (validate_pokemon_model badJson) FieldId.attack = .vInt (-5)
    ∧ validate_pokemon_model [("attack", JsonVal.vInt 7)]
        = { defaultPokemon with attack := .vInt 7 }
    ∧ readField { defaultPokemon with attack := JsonVal.vInt 7 } FieldId.name
        = readField defaultPokemon FieldId.name :=
  ⟨((C8_validate_amended badJson).2 (by rfl) FieldId.attack).trans (by decide),
   ((C8_validate_amended [("attack", JsonVal.vInt 7)]).1
      { defaultPokemon with attack := .vInt 7 } (by rfl)).1,
   ((C8_validate_amended [("attack", JsonVal.vInt 7)]).1
      { defaultPokemon with attack := .vInt 7 } (by rfl)).2 FieldId.name (by rfl)⟩

/-! ## Claim C5: signature verification -/

theorem hexDigit_ascii (n : Nat) : (hexDigit n).toNat < 128 := by
  have h16 : n % 16 < 16 := Nat.mod_lt _ (by norm_num)
  have hall : ∀ i : Fin 16, (hexTable.getD i.val '0').toNat < 128 := by decide
  exact hall ⟨n % 16, h16⟩

theorem bytesToHex_ascii (bs : List Nat) :
    (bytesToHex bs).data.all (fun c => c.toNat < 128) = true := by
  rw [List.all_eq_true]
  intro c hc
  have hc2 : c ∈ (bs.map (fun b => [hexDigit (b / 16), hexDigit b])).flatten := hc
  simp only [List.mem_flatten, List.mem_map] at hc2
  obtain ⟨l, ⟨b, hb, rfl⟩, hcl⟩ := hc2
  simp only [List.mem_cons, List.not_mem_nil, or_false] at hcl
  rcases hcl with rfl | rfl
  · exact decide_eq_true (hexDigit_ascii _)
  · exact decide_eq_true (hexDigit_ascii _)

theorem verify_signature_iff (sig : String) (body : List Nat) (secret : String) :
    verify_signature sig body secret = true
      ↔ ∃ key, b64decode secret = .ok key ∧ sig = bytesToHex (hmacSha256 key body) := by
  unfold verify_signature
  cases hb : b64decode secret with
  | error e => simp
  | ok key =>
    unfold compare_digest
    by_cases hs : sig.data.all (fun c => c.toNat < 128) = true
    · simp only [bytesToHex_ascii, hs, Bool.and_self, if_true]
      constructor
      · intro h
        exact ⟨key, rfl, (eq_of_beq h).symm⟩
      · rintro ⟨key2, hk2, hsig⟩
        have : key2 = key := (Except.ok.inj hk2).symm
        subst this
        subst hsig
        exact beq_self_eq_true _
    · simp only [bytesToHex_ascii, Bool.true_and]
      rw [if_neg (by simpa using hs)]
      constructor
      · intro h; cases h
      · rintro ⟨key2, hk2, hsig⟩
        exact absurd (hsig ▸ bytesToHex_ascii (hmacSha256 key2 body)) hs

/-- C5: `verify_signature` returns true exactly on the lowercase-hex
HMAC-SHA256 of the body keyed by the base64-decoded secret: the round trip
verifies; every undecodable secret yields false rather than an exception;
every signature different from the correct digest — in particular any
single-bit mutation of the signature — yields false; and at the concrete
key/body pair, the single-bit body mutation and the wrong secret also yield
false, their digests differing. -/
theorem C5_verify_signature :
    (∀ (sig : String) (body : List Nat) (secret : String),
      verify_signature sig body secret = true
        ↔ ∃ key, b64decode secret = .ok key ∧ sig = bytesToHex (hmacSha256 key body))
    ∧ (∀ (body : List Nat) (secret : String) (key : List Nat), b64decode secret = .ok key →
        verify_signature (bytesToHex (hmacSha256 key body)) body secret = true)
    ∧ (∀ (sig : String) (body : List Nat) (secret : String) (e : String),
        b64decode secret = .error e → verify_signature sig body secret = false)
    ∧ (∀ (sig : String) (body : List Nat) (secret : String) (key : List Nat),
        b64decode secret = .ok key → sig ≠ bytesToHex (hmacSha256 key body) →
        verify_signature sig body secret = false)
    ∧ verify_signature (bytesToHex (hmacSha256 key0 body0)) body0 secret0 = true
    ∧ verify_signature sig0Flipped body0 secret0 = false
    ∧ verify_signature (bytesToHex (hmacSha256 key0 body0)) body0Flipped secret0 = false
    ∧ verify_signature (bytesToHex (hmacSha256 key0 body0)) body0 secretOther = false := by
  refine ⟨verify_signature_iff, ?_, ?_, ?_, by rfl, by decide, by decide, by decide⟩
  · intro body secret key h
    exact (verify_signature_iff _ body secret).mpr ⟨key, h, rfl⟩
  · intro sig body secret e h
    unfold verify_signature
    rw [h]
  · intro sig body secret key hk hne
    cases hv : verify_signature sig body secret with
    | false => rfl
    | true =>
      obtain ⟨key2, hk2, hsig⟩ := (verify_signature_iff sig body secret).mp hv
      rw [hk] at hk2
      have : key = key2 := Except.ok.inj hk2
      subst this
      exact absurd hsig hne

/-- C5 witness: the theorem applied at the concrete secret, key and body,
with the decode hypothesis and a concrete non-matching signature. -/
theorem C5_verify_signature_witness :
    verify_signature (bytesToHex (hmacSha256 key0 body0)) body0 secret0 = true
    ∧ verify_signature "00" body0 secret0 = false
    ∧ verify_signature "" body0 "a" = false :=
  ⟨C5_verify_signature.2.1 body0 secret0 key0 (by rfl),
   C5_verify_signature.2.2.2.1 "00" body0 secret0 key0 (by rfl) (by decide),
   C5_verify_signature.2.2.1 "" body0 "a" _ (by rfl)⟩
